import Mathlib

/-!
Verification of the `pfs` directory-view component (`src/dir_view.rs`).

This file gives a shallow embedding, in Lean, of the algorithmic fragment of
the `DirView` widget: the debounced thumbnail batcher, the sort comparator,
the filter predicate, the search-term strictness classifier, the display-mode
updates, the type-filter handling and the folder setter.  GTK/GLib plumbing
(property notification, template children, D-Bus marshalling) is modelled
only to the extent the behaviour of those functions depends on it: emitted
filter-change values, log lines and batched request payloads are returned as
explicit values.

Machine strings are modelled at the character-list level: Rust's
`str::starts_with`, `str::trim`, `str::to_lowercase` and `Ord for str`
become `rust_starts_with`, `rust_trim`, `rust_to_lowercase` and
`chars_cmp` below (UTF-8 byte order coincides with code-point order, and a
valid-UTF-8 byte prefix is exactly a character prefix, so the char-level
model is faithful).
-/

namespace Pfs

/-- Model of Rust `str::to_lowercase` (per-character lowercasing). -/
def rust_to_lowercase (s : String) : String :=
  ⟨s.data.map Char.toLower⟩

/-- Model of Rust `str::trim`: drop whitespace from both ends. -/
def rust_trim (s : String) : String :=
  ⟨((s.data.dropWhile Char.isWhitespace).reverse.dropWhile Char.isWhitespace).reverse⟩

/-- Model of Rust `str::starts_with`: the pattern is a prefix of the string. -/
def rust_starts_with (s pat : String) : Bool :=
  pat.data.isPrefixOf s.data

/-- Model of Rust `Ord for str` (lexicographic; byte order equals
code-point order for UTF-8). -/
def chars_cmp : List Char → List Char → Ordering
  | [], [] => .eq
  | [], _ :: _ => .lt
  | _ :: _, [] => .gt
  | a :: as, b :: bs =>
    match compare a b with
    | .eq => chars_cmp as bs
    | o => o

/-- Model of Rust `String::cmp` on display names. -/
def rust_str_cmp (a b : String) : Ordering :=
  chars_cmp a.data b.data

/-- Model of `Ord for Option<T>` (Rust / glib `DateTime` comparison):
`None < Some`, `Some` compared by the inner value. -/
def opt_int_cmp : Option Int → Option Int → Ordering
  | none, none => .eq
  | none, some _ => .lt
  | some _, none => .gt
  | some a, some b => compare a b

/-- `gtk::Ordering` as used by the custom sorter. -/
inductive GtkOrdering
  | Smaller
  | Equal
  | Larger
deriving DecidableEq, Repr

/-- `gtk::FilterChange`, the strictness hint emitted on filter changes. -/
inductive FilterChange
  | LessStrict
  | MoreStrict
  | Different
deriving DecidableEq, Repr

/-- `DisplayMode` from `dir_view.rs`. -/
inductive DisplayMode
  | Content
  | Search
  | Loading
deriving DecidableEq, Repr

/-- `SortMode` from `file_selector.rs` (the two variants matched on in
`setup_sort_and_filter` / `set_sorting`). -/
inductive SortMode
  | DisplayName
  | ModificationTime
deriving DecidableEq, Repr

/-- A `gio::File`: a URI, plus its local filesystem path when it has one
(`path()` returns `None` for e.g. `recent:///`). -/
structure GFile where
  uri : String
  path : Option String
deriving DecidableEq, Repr

/-- The slice of `gio::FileInfo` that `dir_view.rs` reads: display name,
content type (`content_type()` is nullable), modification date-time
(nullable), the `FILE_ATTRIBUTE_THUMBNAIL_IS_VALID` boolean, and the
`standard::file` object. -/
structure FileInfo where
  display_name : String
  content_type : Option String
  modification_date_time : Option Int
  thumbnail_is_valid : Bool
  file : GFile
deriving DecidableEq, Repr

/-- A `GridItem` widget, identified by its identity; the thumbnail paths
applied to it by `set_thumbnail` are reported as explicit effects. -/
structure GridItem where
  id : Nat
deriving DecidableEq, Repr

/-- A `gtk::FileFilter`: its optional name and the MIME types added to it.
`add_mime_type` appends to `mime_types`; a file whose content type is among
`mime_types` is accepted. -/
structure FileFilter where
  name : Option String
  mime_types : List String
deriving DecidableEq, Repr

/-- `FileFilter` acceptance of a content type (membership in the added
MIME types). -/
def filter_accepts_mime (f : FileFilter) (mime : String) : Bool :=
  f.mime_types.contains mime

/-- `DirView::is_directory`: the content type (defaulted to `""` when
absent) equals `inode/directory`. -/
def is_directory (info : FileInfo) : Bool :=
  (info.content_type.getD "") == "inode/directory"

/-- `DirView::sort_by_name`: compare display names, flipping strict
outcomes when `reversed` is set. -/
def sort_by_name (reversed : Bool) (info1 info2 : FileInfo) : GtkOrdering :=
  match rust_str_cmp info1.display_name info2.display_name with
  | .lt => if reversed then .Larger else .Smaller
  | .gt => if reversed then .Smaller else .Larger
  | .eq => .Equal

/-- `DirView::sort_by_modification_time`: compare the (optional)
modification date-times, flipping strict outcomes when `reversed` is set. -/
def sort_by_modification_time (reversed : Bool) (info1 info2 : FileInfo) : GtkOrdering :=
  match opt_int_cmp info1.modification_date_time info2.modification_date_time with
  | .lt => if reversed then .Larger else .Smaller
  | .gt => if reversed then .Smaller else .Larger
  | .eq => .Equal

/-- The custom sorter closure installed by `setup_sort_and_filter`:
directories first (when enabled), then the active criterion. -/
def sorter_compare (directories_first reversed : Bool) (mode : SortMode)
    (info1 info2 : FileInfo) : GtkOrdering :=
  if directories_first && (is_directory info1 && !is_directory info2) then
    .Smaller
  else if directories_first && (is_directory info2 && !is_directory info1) then
    .Larger
  else
    match mode with
    | .DisplayName => sort_by_name reversed info1 info2
    | .ModificationTime => sort_by_modification_time reversed info1 info2

/-- The custom filter closure installed by `setup_sort_and_filter`:
reject on search-term mismatch (against the trimmed, lowercased display
name), reject non-directories in directories-only mode, then apply the
hidden-file policy. -/
def filter_accepts (search_term : Option String) (directories_only show_hidden : Bool)
    (info : FileInfo) : Bool :=
  if (match search_term with
      | some t => !rust_starts_with (rust_to_lowercase (rust_trim info.display_name)) t
      | none => false) then
    false
  else if directories_only && !is_directory info then
    false
  else if show_hidden then
    true
  else if rust_starts_with info.display_name "." then
    false
  else
    true

/-- The debounce window, `THUMBNAILS_DEBOUNCE_SECS` in `dir_view.rs`. -/
def THUMBNAILS_DEBOUNCE_SECS : Nat := 1

/-- The debounce window in milliseconds (time below is measured in ms so
that calls can arrive a fraction of the window apart). -/
def THUMBNAILS_DEBOUNCE_MS : Nat := 1000 * THUMBNAILS_DEBOUNCE_SECS

/-- The mutable state of the `DirView` widget that the verified operations
touch.  `debounce_deadline` models `debounce_id`: `some d` means a timeout
source is armed and will fire at absolute time `d` (ms);
`thumbnailer_proxy` records whether the D-Bus proxy resolved. -/
structure DirViewState where
  folder : Option GFile := none
  has_selection : Bool := false
  display_mode : DisplayMode := .Content
  search_term : Option String := none
  sort_mode : SortMode := .DisplayName
  reversed : Bool := false
  directories_first : Bool := true
  show_hidden : Bool := false
  directories_only : Bool := false
  type_filter : Option FileFilter := none
  real_filter : Option FileFilter := none
  is_loading : Bool := false
  no_thumbnails : List (String × GridItem) := []
  debounce_deadline : Option Nat := none
  thumbnailer_proxy : Bool := false
deriving DecidableEq, Repr

/-- Modelled from the spec: `util::is_valid_folder` lives in `src/util.rs`,
which is not among the sources; per the spec ("a folder is selected
whenever the current location is a real filesystem path") a folder is valid
exactly when it is present and has a filesystem path. -/
def is_valid_folder : Option GFile → Bool
  | none => false
  | some f => f.path.isSome

/-- `DirView::update_directory_selection`: in directories-only mode,
`has_selection` tracks validity of the current folder; otherwise no-op. -/
def update_directory_selection (s : DirViewState) : DirViewState :=
  if !s.directories_only then s
  else { s with has_selection := is_valid_folder s.folder }

/-- `DirView::set_folder`.  Returns the new state and whether
`notify_folder` was emitted.  A `None` argument and a folder equal (by URI,
as `gio::File::equal`) to the current one are early returns; otherwise the
pending-thumbnail map is cleared, the folder stored and the
directory-selection recomputed. -/
def set_folder (s : DirViewState) (folder : Option GFile) : DirViewState × Bool :=
  match folder with
  | none => (s, false)
  | some f =>
    if (match s.folder with
        | some old => f.uri == old.uri
        | none => false) then
      (s, false)
    else
      (update_directory_selection
        { s with no_thumbnails := [], folder := some f }, true)

/-- `DirView::set_search_term`.  Returns the new state and the
`FilterChange` emitted on the filter (`none` when the normalized term is
unchanged and the call returns early). -/
def set_search_term (s : DirViewState) (search_term : Option String) :
    DirViewState × Option FilterChange :=
  let new_term := search_term.map fun t => rust_to_lowercase (rust_trim t)
  if s.search_term = new_term then
    (s, none)
  else
    let strict :=
      match s.search_term, new_term with
      | none, _ => FilterChange.Different
      | _, none => FilterChange.Different
      | some o, some n =>
        if rust_starts_with o n then FilterChange.LessStrict
        else if rust_starts_with n o then FilterChange.MoreStrict
        else FilterChange.Different
    let mode :=
      match new_term with
      | some n => if !n.isEmpty then DisplayMode.Search else DisplayMode.Content
      | none => DisplayMode.Content
    ({ s with search_term := new_term, display_mode := mode }, some strict)

/-- `DirView::on_loading_changed`: mirror the directory list's loading
state into `display_mode` (and record it). -/
def on_loading_changed (s : DirViewState) (is_loading : Bool) : DirViewState :=
  { s with
      is_loading := is_loading,
      display_mode := if is_loading then .Loading else .Content }

/-- `DirView::set_type_filter`: early return when unchanged; otherwise
build `real_filter` as a copy of the supplied filter
(`from_gvariant (to_gvariant ·)`) with `inode/directory` added, leaving the
supplied filter itself untouched. -/
def set_type_filter (s : DirViewState) (type_filter : Option FileFilter) : DirViewState :=
  if s.type_filter = type_filter then s
  else
    match type_filter with
    | some filter =>
      let real_filter : FileFilter :=
        { filter with mime_types := filter.mime_types ++ ["inode/directory"] }
      { s with real_filter := some real_filter, type_filter := type_filter }
    | none =>
      { s with real_filter := none, type_filter := none }

/-- `DirView::selected`.  In directories-only mode the result depends only
on the current folder (the source `unwrap`s the folder, so the branch is
only reached with a folder set; an unset folder is mapped to `none` here).
Otherwise it is the URI of the explicitly selected item, if any. -/
def selected (s : DirViewState) (selected_item : Option FileInfo) : Option (List String) :=
  if s.directories_only then
    match s.folder with
    | some f =>
      match f.path with
      | none => none
      | some _ => some [f.uri]
    | none => none
  else
    match selected_item with
    | none => none
    | some item => some [item.file.uri]

/-- `DirView::on_selection_changed` restricted to its effect on
`has_selection`: a selected non-directory item counts as selected, but in
directories-only mode the function returns before touching
`has_selection`.  (The `new-uri` / `new-filename` signal emissions are
orthogonal to the verified claims and omitted.) -/
def on_selection_changed (s : DirViewState) (selected_item : Option FileInfo) : DirViewState :=
  let is_selected :=
    match selected_item with
    | some info => !is_directory info
    | none => false
  if s.directories_only then s
  else { s with has_selection := is_selected }

/-- `HashMap::insert` on the pending-thumbnail map (keys stay distinct:
inserting overwrites any stale entry for the same key). -/
def assoc_insert (k : String) (v : GridItem) (l : List (String × GridItem)) :
    List (String × GridItem) :=
  (k, v) :: l.filter fun p => p.1 != k

/-- `HashMap::remove` on the pending-thumbnail map. -/
def assoc_remove (k : String) (l : List (String × GridItem)) : List (String × GridItem) :=
  l.filter fun p => p.1 != k

/-- The thumbnail part of `DirView::on_item_bind` at absolute time `now`
(ms): entries with a valid thumbnail are a no-op; otherwise the entry is
inserted into `no_thumbnails` keyed by its URI, the armed debounce timeout
(if any) is removed and a fresh one armed a full window from `now`. -/
def on_item_bind (s : DirViewState) (now : Nat) (info : FileInfo) (grid_item : GridItem) :
    DirViewState :=
  if info.thumbnail_is_valid then s
  else
    { s with
        no_thumbnails := assoc_insert info.file.uri grid_item s.no_thumbnails,
        debounce_deadline := some (now + THUMBNAILS_DEBOUNCE_MS) }

/-- `DirView::send_for_thumbnailing`: with no proxy, no request; otherwise
the batched `ThumbnailFiles` request carries the keys of `no_thumbnails`
(which is *not* cleared). -/
def send_for_thumbnailing (s : DirViewState) : Option (List String) :=
  if s.thumbnailer_proxy then some (s.no_thumbnails.map Prod.fst)
  else none

/-- The debounce timeout firing: clear `debounce_id` and call
`send_for_thumbnailing`. -/
def fire_debounce (s : DirViewState) : DirViewState × Option (List String) :=
  ({ s with debounce_deadline := none }, send_for_thumbnailing s)

/-- One timestamped binding event: arrival time (ms), the bound file info
and its grid item. -/
abbrev BindEvent := Nat × FileInfo × GridItem

/-- Deliver one binding event: an armed timeout whose deadline has been
reached fires first (emitting its request), then the binding runs. -/
def bind_step (acc : DirViewState × List (List String)) (ev : BindEvent) :
    DirViewState × List (List String) :=
  let s := acc.1
  let reqs := acc.2
  let fired :=
    match s.debounce_deadline with
    | some d =>
      if d ≤ ev.1 then
        let f := fire_debounce s
        (f.1, reqs ++ f.2.toList)
      else (s, reqs)
    | none => (s, reqs)
  (on_item_bind fired.1 ev.1 ev.2.1 ev.2.2, fired.2)

/-- Deliver a time-ordered list of binding events. -/
def run_binds (s : DirViewState) (evs : List BindEvent) :
    DirViewState × List (List String) :=
  evs.foldl bind_step (s, [])

/-- Deliver the events, then let time pass so that any still-armed debounce
timeout fires. -/
def run_binds_settle (s : DirViewState) (evs : List BindEvent) :
    DirViewState × List (List String) :=
  let r := run_binds s evs
  match r.1.debounce_deadline with
  | some _ =>
    let f := fire_debounce r.1
    (f.1, r.2 ++ f.2.toList)
  | none => r

/-- `DirView::on_thumbnailing_done`, over the decoded `ThumbnailingDone`
payload (a map of file URI to variant, modelled as a list with distinct
keys; the variant decodes to `some path` when it is a string).  For each
key found in the pending map the entry is removed and, when the variant is
a string, the thumbnail applied.  Returns the new pending map and the list
of applied `(uri, item, path)` effects. -/
def on_thumbnailing_done : List (String × Option String) → List (String × GridItem) →
    List (String × GridItem) × List (String × GridItem × String)
  | [], pending => (pending, [])
  | (file_uri, value_var) :: rest, pending =>
    match pending.lookup file_uri with
    | some item =>
      let r := on_thumbnailing_done rest (assoc_remove file_uri pending)
      match value_var with
      | some path => (r.1, (file_uri, item, path) :: r.2)
      | none => r
    | none => on_thumbnailing_done rest pending

/-- The error kind of a `glib::Error` as seen through
`Error::kind::<gio::DBusError>()`: `none` when the error is not in the
D-Bus error domain. -/
inductive DBusErrorKind
  | ServiceUnknown
  | OtherKind (code : Nat)
deriving DecidableEq, Repr

/-- A `glib::Error` as far as `on_thumbnail_files_ready` inspects it. -/
structure GError where
  dbus_kind : Option DBusErrorKind
  message : String
deriving DecidableEq, Repr

/-- `DirView::on_thumbnail_files_ready`: returns the warnings logged.  The
function returns `()` in the source — the result is never propagated — so
the log lines are its only observable effect.  `Ok` results and
service-unknown failures produce nothing; a D-Bus-domain failure of any
other kind is logged; an error outside the D-Bus domain falls through the
`if let` and produces nothing. -/
def on_thumbnail_files_ready (result : Except GError Unit) : List String :=
  match result with
  | .ok _ => []
  | .error e =>
    match e.dbus_kind with
    | some dbus_error =>
      if dbus_error != DBusErrorKind.ServiceUnknown then
        ["ThumbnailFiles failed: " ++ e.message]
      else []
    | none => []

/-- The time constraint of the batching scenario: consecutive binding
events are time-ordered and arrive less than the debounce window apart. -/
def bind_times_ok : List BindEvent → Bool
  | [] => true
  | [_] => true
  | a :: b :: rest =>
    (decide (a.1 ≤ b.1) && decide (b.1 < a.1 + THUMBNAILS_DEBOUNCE_MS)) &&
      bind_times_ok (b :: rest)

/-- The pending-map update performed by one binding event. -/
def insert_event (m : List (String × GridItem)) (ev : BindEvent) :
    List (String × GridItem) :=
  assoc_insert ev.2.1.file.uri ev.2.2 m

/-- The unreversed value of the active sort criterion (spec side of the
comparator claim). -/
def criterion_cmp (mode : SortMode) (info1 info2 : FileInfo) : Ordering :=
  match mode with
  | .DisplayName => rust_str_cmp info1.display_name info2.display_name
  | .ModificationTime => opt_int_cmp info1.modification_date_time info2.modification_date_time

/-- Spec side of the comparator claim: map a criterion comparison to a
`gtk::Ordering`, inverting the strict outcomes exactly when `reversed` is
set and yielding `Equal` on ties. -/
def apply_reversed (reversed : Bool) : Ordering → GtkOrdering
  | .lt => if reversed then .Larger else .Smaller
  | .gt => if reversed then .Smaller else .Larger
  | .eq => .Equal

/-- The filter predicate exactly as the claim words it: the normalized term
is empty or absent, or the display name *lowercased* (with no trimming)
starts with it; directories-only off or a directory; show-hidden on or not
a dotfile. -/
def claimed_filter_accepts (search_term : Option String) (directories_only show_hidden : Bool)
    (info : FileInfo) : Bool :=
  (match search_term with
   | none => true
   | some t => (t == "") || rust_starts_with (rust_to_lowercase info.display_name) t) &&
  (!directories_only || is_directory info) &&
  (show_hidden || !rust_starts_with info.display_name ".")

/-- The filter predicate as amended: identical to `claimed_filter_accepts`
except that the display name is trimmed before lowercasing, as the code
does. -/
def amended_filter_accepts (search_term : Option String) (directories_only show_hidden : Bool)
    (info : FileInfo) : Bool :=
  (match search_term with
   | none => true
   | some t =>
     (t == "") || rust_starts_with (rust_to_lowercase (rust_trim info.display_name)) t) &&
  (!directories_only || is_directory info) &&
  (show_hidden || !rust_starts_with info.display_name ".")

/-- Whether a search term is active (present and non-empty). -/
def term_active : Option String → Bool
  | none => false
  | some t => !t.isEmpty

/-- The display mode the claim asserts as an invariant: `Search` exactly
when a non-empty term is active, `Loading` exactly when no term is active
and the listing is loading, `Content` otherwise. -/
def claimed_display_mode (s : DirViewState) : DisplayMode :=
  if term_active s.search_term then .Search
  else if s.is_loading then .Loading
  else .Content

/-- The two event kinds driving the display mode. -/
inductive ViewEvent
  | SetTerm (term : Option String)
  | LoadingChanged (is_loading : Bool)
deriving DecidableEq, Repr

/-- Deliver one display-mode-relevant event. -/
def view_step (s : DirViewState) : ViewEvent → DirViewState
  | .SetTerm t => (set_search_term s t).1
  | .LoadingChanged b => on_loading_changed s b

/-- Deliver a sequence of display-mode-relevant events. -/
def view_run (s : DirViewState) (evs : List ViewEvent) : DirViewState :=
  evs.foldl view_step s

/-- Whether a `set_folder` argument denotes a folder different from the
current one (spec side of the frame-effect claim). -/
def folder_would_change (s : DirViewState) : Option GFile → Bool
  | none => false
  | some f =>
    match s.folder with
    | none => true
    | some old => f.uri != old.uri

/-- Invariant of the type-filter claim: whenever a type filter is set, the
effective filter exists and accepts `inode/directory`. -/
def real_filter_ok (s : DirViewState) : Prop :=
  ∀ f, s.type_filter = some f →
    ∃ r, s.real_filter = some r ∧ filter_accepts_mime r "inode/directory" = true

/- Concrete sample inputs used by witnesses and counterexamples. -/

/-- A sample directory entry. -/
def sample_dir : FileInfo :=
  { display_name := "A", content_type := some "inode/directory",
    modification_date_time := some 5, thumbnail_is_valid := true,
    file := { uri := "file:///A", path := some "/A" } }

/-- A sample plain-file entry. -/
def sample_file : FileInfo :=
  { display_name := "b.txt", content_type := some "text/plain",
    modification_date_time := some 3, thumbnail_is_valid := true,
    file := { uri := "file:///b.txt", path := some "/b.txt" } }

/-- A file entry whose display name has a leading space: the filter code
trims it before matching, the claim's predicate does not. -/
def sample_spacename : FileInfo :=
  { display_name := " A", content_type := some "text/plain",
    modification_date_time := none, thumbnail_is_valid := true,
    file := { uri := "file:///x", path := some "/x" } }

/-- A thumbnail-less entry keyed by the given URI. -/
def sample_entry (uri : String) : FileInfo :=
  { display_name := uri, content_type := some "image/png",
    modification_date_time := none, thumbnail_is_valid := false,
    file := { uri := uri, path := some uri } }

/-- Five binding events 200 ms apart (debounce window: 1000 ms). -/
def sample_binds : List BindEvent :=
  [(0, sample_entry "file:///1", ⟨1⟩),
   (200, sample_entry "file:///2", ⟨2⟩),
   (400, sample_entry "file:///3", ⟨3⟩),
   (600, sample_entry "file:///4", ⟨4⟩),
   (800, sample_entry "file:///5", ⟨5⟩)]

/-- A view state with a live thumbnailer proxy and nothing pending. -/
def sample_view : DirViewState :=
  { thumbnailer_proxy := true }

/-- A failure that is not in the D-Bus error domain (as produced e.g. by
cancelling the call): `Error::kind::<gio::DBusError>()` yields `None`. -/
def cancelled_error : GError :=
  { dbus_kind := none, message := "Operation was cancelled" }

/-- A sample type filter accepting only PNG images. -/
def sample_filter : FileFilter :=
  { name := some "PNG", mime_types := ["image/png"] }

/-- A sample decoded `ThumbnailingDone` payload. -/
def sample_batch : List (String × Option String) :=
  [("file:///1", some "/th/1.png"), ("file:///9", some "/th/9.png")]

/-- A sample pending-thumbnail map. -/
def sample_pending : List (String × GridItem) :=
  [("file:///1", ⟨1⟩), ("file:///2", ⟨2⟩)]

/-! ## Theorems -/

theorem rust_starts_with_empty (s : String) : rust_starts_with s "" = true := by
  simp [rust_starts_with]

theorem update_directory_selection_no_thumbnails (s : DirViewState) :
    (update_directory_selection s).no_thumbnails = s.no_thumbnails := by
  unfold update_directory_selection
  split <;> rfl

/-- C3: with directories-first enabled, a directory sorts strictly before a
non-directory for every criterion and reversed flag; entries with equal
is-directory status are compared by the active criterion, the result being
inverted exactly when reversed is set, with `Equal` on ties. -/
theorem sorter_compare_spec :
    (∀ (reversed : Bool) (mode : SortMode) (d f : FileInfo),
      is_directory d = true → is_directory f = false →
      sorter_compare true reversed mode d f = GtkOrdering.Smaller) ∧
    (∀ (directories_first reversed : Bool) (mode : SortMode) (info1 info2 : FileInfo),
      is_directory info1 = is_directory info2 →
      sorter_compare directories_first reversed mode info1 info2 =
        apply_reversed reversed (criterion_cmp mode info1 info2)) := by
  constructor
  · intro reversed mode d f hd hf
    simp [sorter_compare, hd, hf]
  · intro directories_first reversed mode info1 info2 h
    cases mode with
    | DisplayName =>
      cases hc : rust_str_cmp info1.display_name info2.display_name <;>
        simp [sorter_compare, h, criterion_cmp, sort_by_name, hc, apply_reversed]
    | ModificationTime =>
      cases hc : opt_int_cmp info1.modification_date_time info2.modification_date_time <;>
        simp [sorter_compare, h, criterion_cmp, sort_by_modification_time, hc, apply_reversed]

theorem sorter_compare_spec_witness :
    is_directory sample_dir = true ∧ is_directory sample_file = false ∧
    sorter_compare true true SortMode.ModificationTime sample_dir sample_file =
      GtkOrdering.Smaller :=
  ⟨by decide, by decide,
    sorter_compare_spec.1 true SortMode.ModificationTime sample_dir sample_file
      (by decide) (by decide)⟩

/-- C6 counterexample: on a display name with a leading space the filter
code (which trims the name before matching) accepts, while the claim's
predicate (no trimming) rejects. -/
theorem filter_accepts_cex :
    filter_accepts (some "a") false false sample_spacename = true ∧
    claimed_filter_accepts (some "a") false false sample_spacename = false := by
  decide

/-- C6 amended: the filter accepts an entry exactly when the term is
empty/absent or the *trimmed*, lowercased display name starts with the
normalized term, and directories-only is off or the entry is a directory,
and show-hidden is on or the name is not a dotfile. -/
theorem filter_accepts_spec :
    ∀ (search_term : Option String) (directories_only show_hidden : Bool) (info : FileInfo),
      filter_accepts search_term directories_only show_hidden info =
        amended_filter_accepts search_term directories_only show_hidden info := by
  intro search_term directories_only show_hidden info
  rcases search_term with _ | t
  · cases directories_only <;> cases show_hidden <;>
      cases hdir : is_directory info <;>
      cases hdot : rust_starts_with info.display_name "." <;>
        simp [filter_accepts, amended_filter_accepts, hdir, hdot]
  · by_cases ht : t = ""
    · subst ht
      cases directories_only <;> cases show_hidden <;>
        cases hdir : is_directory info <;>
        cases hdot : rust_starts_with info.display_name "." <;>
          simp [filter_accepts, amended_filter_accepts, hdir, hdot, rust_starts_with_empty]
    · cases hm : rust_starts_with (rust_to_lowercase (rust_trim info.display_name)) t <;>
        cases directories_only <;> cases show_hidden <;>
        cases hdir : is_directory info <;>
        cases hdot : rust_starts_with info.display_name "." <;>
          simp [filter_accepts, amended_filter_accepts, hdir, hdot, hm, ht]

/-- C5 counterexample: a failure outside the D-Bus error domain (e.g. a
cancelled call) is not the service-unknown failure, yet nothing is logged —
the claim's "every other failure is logged" is false. -/
theorem on_thumbnail_files_ready_cex :
    cancelled_error.dbus_kind ≠ some DBusErrorKind.ServiceUnknown ∧
    on_thumbnail_files_ready (Except.error cancelled_error) = [] := by
  decide

/-- C5 amended: no failure is ever propagated (the handler only produces
log lines), and something is logged exactly when the result is an error in
the D-Bus error domain whose kind is not service-unknown. -/
theorem on_thumbnail_files_ready_spec :
    ∀ result : Except GError Unit,
      on_thumbnail_files_ready result ≠ [] ↔
        ∃ e k, result = Except.error e ∧ e.dbus_kind = some k ∧
          k ≠ DBusErrorKind.ServiceUnknown := by
  intro result
  cases result with
  | ok _ => simp [on_thumbnail_files_ready]
  | error e =>
    rcases hk : e.dbus_kind with _ | k
    · simp [on_thumbnail_files_ready, hk]
    · by_cases hsk : k = DBusErrorKind.ServiceUnknown
      · subst hsk
        simp [on_thumbnail_files_ready, hk]
      · simp [on_thumbnail_files_ready, hk, hsk]

/-- C7: setting a type filter preserves the invariant that the effective
filter accepts `inode/directory`, and the stored `type_filter` is exactly
the supplied filter (the directory MIME type is added only to a copy). -/
theorem set_type_filter_spec :
    ∀ (s : DirViewState) (tf : Option FileFilter),
      real_filter_ok s →
      real_filter_ok (set_type_filter s tf) ∧ (set_type_filter s tf).type_filter = tf := by
  intro s tf hs
  by_cases h : s.type_filter = tf
  · rw [set_type_filter.eq_def, if_pos h]
    exact ⟨hs, h⟩
  · rcases tf with _ | f
    · rw [set_type_filter.eq_def, if_neg h]
      exact ⟨(fun g hg => nomatch hg), rfl⟩
    · rw [set_type_filter.eq_def, if_neg h]
      refine ⟨?_, rfl⟩
      intro g hg
      refine ⟨_, rfl, ?_⟩
      simp [filter_accepts_mime]

theorem set_type_filter_spec_witness :
    real_filter_ok {} ∧
    (real_filter_ok (set_type_filter {} (some sample_filter)) ∧
      (set_type_filter {} (some sample_filter)).type_filter = some sample_filter) :=
  ⟨(fun _ h => nomatch h), set_type_filter_spec {} (some sample_filter) (fun _ h => nomatch h)⟩

/-- C9: in directories-only mode, with a folder set, the view has a
selection exactly when the folder has a filesystem path, `selected`
returns the folder URI as a singleton exactly then (and nothing
otherwise), and explicit item-selection changes leave `has_selection`
untouched. -/
theorem directories_only_selection_spec :
    ∀ (s : DirViewState) (f : GFile) (item : Option FileInfo),
      s.directories_only = true → s.folder = some f →
      (update_directory_selection s).has_selection = f.path.isSome ∧
      selected s item = (if f.path.isSome then some [f.uri] else none) ∧
      (on_selection_changed s item).has_selection = s.has_selection := by
  intro s f item hdo hf
  refine ⟨?_, ?_, ?_⟩
  · simp [update_directory_selection, hdo, is_valid_folder, hf]
  · cases hp : f.path <;> simp [selected, hdo, hf, hp]
  · simp [on_selection_changed, hdo]

theorem directories_only_selection_spec_witness :
    ({ directories_only := true, folder := some { uri := "recent:///", path := none } }
        : DirViewState).directories_only = true ∧
    selected { directories_only := true, folder := some { uri := "recent:///", path := none } }
        (some sample_file) =
      (if ({ uri := "recent:///", path := none } : GFile).path.isSome
        then some [({ uri := "recent:///", path := none } : GFile).uri] else none) :=
  ⟨by decide,
    (directories_only_selection_spec
      { directories_only := true, folder := some { uri := "recent:///", path := none } }
      { uri := "recent:///", path := none } (some sample_file) (by decide) (by decide)).2.1⟩

/-- C10: `set_folder` with `None`, or with a folder equal (by URI) to the
current one, changes nothing and emits no notification; the
pending-thumbnail map is cleared exactly when the folder actually
changes. -/
theorem set_folder_spec :
    ∀ (s : DirViewState) (folder : Option GFile),
      (folder = none → set_folder s folder = (s, false)) ∧
      (∀ f old, folder = some f → s.folder = some old → f.uri = old.uri →
        set_folder s folder = (s, false)) ∧
      (set_folder s folder).1.no_thumbnails =
        (if folder_would_change s folder then [] else s.no_thumbnails) := by
  intro s folder
  refine ⟨?_, ?_, ?_⟩
  · rintro rfl
    rfl
  · rintro f old rfl hold heq
    simp [set_folder, hold, heq]
  · rcases folder with _ | f
    · simp [set_folder, folder_would_change]
    · rcases hold : s.folder with _ | old
      · simp [set_folder, hold, folder_would_change,
          update_directory_selection_no_thumbnails]
      · by_cases he : f.uri = old.uri
        · simp [set_folder, hold, folder_would_change, he]
        · simp [set_folder, hold, folder_would_change, he,
            update_directory_selection_no_thumbnails]

theorem set_folder_spec_witness :
    ({ folder := some { uri := "file:///home", path := some "/home" } }
        : DirViewState).folder = some { uri := "file:///home", path := some "/home" } ∧
    set_folder { folder := some { uri := "file:///home", path := some "/home" } }
        (some { uri := "file:///home", path := some "/home" }) =
      ({ folder := some { uri := "file:///home", path := some "/home" } }, false) :=
  ⟨by decide,
    (set_folder_spec { folder := some { uri := "file:///home", path := some "/home" } }
        (some { uri := "file:///home", path := some "/home" })).2.1
      { uri := "file:///home", path := some "/home" }
      { uri := "file:///home", path := some "/home" } rfl (by decide) rfl⟩

/-- C8 counterexample: after setting a non-empty search term and then
receiving a loading notification, the code's display mode is `Loading`
while the claimed invariant demands `Search` (the term is still active). -/
theorem display_mode_cex :
    (view_run {} [ViewEvent.SetTerm (some "a"), ViewEvent.LoadingChanged true]).display_mode =
      DisplayMode.Loading ∧
    term_active
      (view_run {} [ViewEvent.SetTerm (some "a"),
        ViewEvent.LoadingChanged true]).search_term = true ∧
    (view_run {} [ViewEvent.SetTerm (some "a"),
        ViewEvent.LoadingChanged true]).is_loading = true ∧
    claimed_display_mode
      (view_run {} [ViewEvent.SetTerm (some "a"), ViewEvent.LoadingChanged true]) =
      DisplayMode.Search := by
  decide

/-- C8 amended: the display mode reflects only the most recent event: a
search-term change that alters the normalized term sets `Search` exactly
when the new term is non-empty (else `Content`), ignoring the loading
state; a loading notification sets `Loading` exactly when the listing is
loading (else `Content`), ignoring the search term. -/
theorem display_mode_spec :
    ∀ (s : DirViewState) (term : Option String) (loading : Bool),
      ((term.map fun t => rust_to_lowercase (rust_trim t)) ≠ s.search_term →
        (set_search_term s term).1.display_mode =
          (if term_active (term.map fun t => rust_to_lowercase (rust_trim t))
            then DisplayMode.Search else DisplayMode.Content)) ∧
      (on_loading_changed s loading).display_mode =
        (if loading then DisplayMode.Loading else DisplayMode.Content) := by
  intro s term loading
  constructor
  · intro hne
    have h : ¬(s.search_term = term.map fun t => rust_to_lowercase (rust_trim t)) :=
      fun h => hne h.symm
    cases term <;> simp only [Option.map_some', Option.map_none'] at h <;>
      simp [set_search_term, h, term_active]
  · rfl

theorem display_mode_spec_witness :
    ((some "a").map fun t => rust_to_lowercase (rust_trim t)) ≠
      ({} : DirViewState).search_term ∧
    (set_search_term {} (some "a")).1.display_mode =
      (if term_active ((some "a").map fun t => rust_to_lowercase (rust_trim t))
        then DisplayMode.Search else DisplayMode.Content) :=
  ⟨by decide, (display_mode_spec {} (some "a") true).1 (by decide)⟩

/-- C2: for non-empty normalized terms, an actual term change is classified
less strict when the new term is a prefix of the old, more strict when the
old term is a prefix of the new, different otherwise; in particular
"re"→"rep" is more strict, "rep"→"re" is less strict and "re"→"ax" is
different. -/
theorem set_search_term_classification :
    (∀ (s : DirViewState) (old_term raw new_term : String),
      s.search_term = some old_term →
      new_term = rust_to_lowercase (rust_trim raw) →
      old_term ≠ "" → new_term ≠ "" → old_term ≠ new_term →
      (set_search_term s (some raw)).2 =
        some (if new_term.data <+: old_term.data then FilterChange.LessStrict
          else if old_term.data <+: new_term.data then FilterChange.MoreStrict
          else FilterChange.Different)) ∧
    (set_search_term { search_term := some "re" } (some "rep")).2 =
      some FilterChange.MoreStrict ∧
    (set_search_term { search_term := some "rep" } (some "re")).2 =
      some FilterChange.LessStrict ∧
    (set_search_term { search_term := some "re" } (some "ax")).2 =
      some FilterChange.Different := by
  refine ⟨?_, by decide, by decide, by decide⟩
  intro s old_term raw new_term hs hn _ho _hn0 hne
  subst hn
  have hcond : ¬(s.search_term =
      Option.map (fun t => rust_to_lowercase (rust_trim t)) (some raw)) := by
    rw [hs]
    simp only [Option.map_some', Option.some.injEq]
    exact hne
  simp only [set_search_term, if_neg hcond, hs]
  simp [rust_starts_with, hne]

theorem set_search_term_classification_witness :
    ({ search_term := some "rep" } : DirViewState).search_term = some "rep" ∧
    ("re" : String) = rust_to_lowercase (rust_trim "re") ∧
    ("rep" : String) ≠ "" ∧ ("re" : String) ≠ "" ∧ ("rep" : String) ≠ "re" ∧
    (set_search_term { search_term := some "rep" } (some "re")).2 =
      some (if "re".data <+: "rep".data then FilterChange.LessStrict
        else if "rep".data <+: "re".data then FilterChange.MoreStrict
        else FilterChange.Different) :=
  ⟨rfl, by decide, by decide, by decide, by decide,
    set_search_term_classification.1 { search_term := some "rep" } "rep" "re" "re"
      rfl (by decide) (by decide) (by decide) (by decide)⟩

theorem lookup_assoc_remove_self (u : String) (l : List (String × GridItem)) :
    (assoc_remove u l).lookup u = none := by
  unfold assoc_remove
  induction l with
  | nil => rfl
  | cons p t ih =>
    obtain ⟨a, b⟩ := p
    by_cases h : a = u
    · subst h
      rw [List.filter_cons_of_neg (by simp)]
      exact ih
    · rw [List.filter_cons_of_pos (by simp [h])]
      rw [List.lookup_cons]
      have hb : (u == a) = false := by simp [Ne.symm h]
      rw [hb]
      exact ih

theorem lookup_assoc_remove_ne (k u : String) (h : k ≠ u) (l : List (String × GridItem)) :
    (assoc_remove u l).lookup k = l.lookup k := by
  unfold assoc_remove
  induction l with
  | nil => rfl
  | cons p t ih =>
    obtain ⟨a, b⟩ := p
    by_cases hp : a = u
    · subst hp
      rw [List.filter_cons_of_neg (by simp)]
      rw [ih, List.lookup_cons]
      have hb : (k == a) = false := by simp [h]
      rw [hb]
    · rw [List.filter_cons_of_pos (by simp [hp])]
      rw [List.lookup_cons, List.lookup_cons]
      cases hb : k == a
      · exact ih
      · rfl

theorem on_thumbnailing_done_lookup (thumbnails : List (String × Option String)) :
    ∀ (pending : List (String × GridItem)) (k : String),
      (thumbnails.map Prod.fst).Nodup →
      (on_thumbnailing_done thumbnails pending).1.lookup k =
        (if k ∈ thumbnails.map Prod.fst then none else pending.lookup k) := by
  induction thumbnails with
  | nil =>
    intro pending k _
    simp [on_thumbnailing_done]
  | cons tv rest ih =>
    intro pending k hnd
    obtain ⟨u, v⟩ := tv
    simp only [List.map_cons, List.nodup_cons] at hnd
    obtain ⟨hu, hrest⟩ := hnd
    by_cases hk : k = u
    · subst hk
      cases hl : pending.lookup k with
      | none =>
        simp only [on_thumbnailing_done, hl]
        rw [ih pending k hrest]
        simp [hl]
      | some item =>
        cases v <;> simp only [on_thumbnailing_done, hl] <;>
          rw [ih _ k hrest] <;>
          simp [hu, lookup_assoc_remove_self]
    · cases hl : pending.lookup u with
      | none =>
        simp only [on_thumbnailing_done, hl]
        rw [ih pending k hrest]
        simp only [List.map_cons, List.mem_cons, hk, false_or]
      | some item =>
        cases v <;> simp only [on_thumbnailing_done, hl] <;>
          rw [ih _ k hrest, lookup_assoc_remove_ne k u hk] <;>
          simp only [List.map_cons, List.mem_cons, hk, false_or]

theorem on_thumbnailing_done_applied (thumbnails : List (String × Option String)) :
    ∀ (pending : List (String × GridItem)) (k : String) (item : GridItem) (path : String),
      (thumbnails.map Prod.fst).Nodup →
      ((k, item, path) ∈ (on_thumbnailing_done thumbnails pending).2 ↔
        (k, some path) ∈ thumbnails ∧ pending.lookup k = some item) := by
  induction thumbnails with
  | nil =>
    intro pending k item path _
    simp [on_thumbnailing_done]
  | cons tv rest ih =>
    intro pending k item path hnd
    obtain ⟨u, v⟩ := tv
    simp only [List.map_cons, List.nodup_cons] at hnd
    obtain ⟨hu, hrest⟩ := hnd
    have hmr : ∀ w : Option String, ((u, w) ∈ rest) = False := fun w =>
      eq_false fun hw => hu (List.mem_map_of_mem Prod.fst hw)
    cases hl : pending.lookup u with
    | none =>
      simp only [on_thumbnailing_done, hl]
      rw [ih pending k item path hrest]
      by_cases hk : k = u
      · subst hk
        simp [hl, hmr]
      · simp [List.mem_cons, Prod.mk.injEq, hk]
    | some it0 =>
      by_cases hk : k = u
      · subst hk
        cases v with
        | some p0 =>
          simp only [on_thumbnailing_done, hl, List.mem_cons]
          rw [ih _ k item path hrest]
          simp only [lookup_assoc_remove_self, Prod.mk.injEq, hl, hmr, true_and,
            Option.some.injEq, false_and, and_false, or_false, false_or]
          constructor
          · rintro ⟨h1, h2⟩
            exact ⟨h2, h1.symm⟩
          · rintro ⟨h1, h2⟩
            exact ⟨h2.symm, h1⟩
        | none =>
          simp only [on_thumbnailing_done, hl, List.mem_cons]
          rw [ih _ k item path hrest]
          simp [lookup_assoc_remove_self, hmr]
      · have hrm := lookup_assoc_remove_ne k u hk pending
        cases v with
        | some p0 =>
          simp only [on_thumbnailing_done, hl, List.mem_cons]
          rw [ih _ k item path hrest]
          simp [hrm, Prod.mk.injEq, hk]
        | none =>
          simp only [on_thumbnailing_done, hl, List.mem_cons]
          rw [ih _ k item path hrest]
          simp [hrm, Prod.mk.injEq, hk]

/-- C4: for a batch result with distinct keys, a result key present in the
pending set has the thumbnail applied to its entry and is removed from the
pending set; a result key absent from the pending set is a no-op (nothing
applied for it, pending unchanged at that key); pending keys absent from
the result remain pending unchanged. -/
theorem on_thumbnailing_done_spec :
    ∀ (thumbnails : List (String × Option String)) (pending : List (String × GridItem))
      (k : String) (item : GridItem) (path : String),
      (thumbnails.map Prod.fst).Nodup →
      ((on_thumbnailing_done thumbnails pending).1.lookup k =
        (if k ∈ thumbnails.map Prod.fst then none else pending.lookup k)) ∧
      ((k, item, path) ∈ (on_thumbnailing_done thumbnails pending).2 ↔
        (k, some path) ∈ thumbnails ∧ pending.lookup k = some item) :=
  fun thumbnails pending k item path hnd =>
    ⟨on_thumbnailing_done_lookup thumbnails pending k hnd,
      on_thumbnailing_done_applied thumbnails pending k item path hnd⟩

theorem on_thumbnailing_done_spec_witness :
    (sample_batch.map Prod.fst).Nodup ∧
    ((on_thumbnailing_done sample_batch sample_pending).1.lookup "file:///1" =
      (if "file:///1" ∈ sample_batch.map Prod.fst then none
        else sample_pending.lookup "file:///1")) ∧
    ((("file:///1", (⟨1⟩ : GridItem), "/th/1.png") ∈
        (on_thumbnailing_done sample_batch sample_pending).2) ↔
      ("file:///1", some "/th/1.png") ∈ sample_batch ∧
        sample_pending.lookup "file:///1" = some ⟨1⟩) :=
  ⟨by decide,
    (on_thumbnailing_done_spec sample_batch sample_pending "file:///1" ⟨1⟩ "/th/1.png"
      (by decide)).1,
    (on_thumbnailing_done_spec sample_batch sample_pending "file:///1" ⟨1⟩ "/th/1.png"
      (by decide)).2⟩

theorem bind_times_ok_tail {a : BindEvent} {l : List BindEvent}
    (h : bind_times_ok (a :: l) = true) : bind_times_ok l = true := by
  cases l with
  | nil => rfl
  | cons b t =>
    simp only [bind_times_ok, Bool.and_eq_true] at h
    exact h.2

theorem bind_times_ok_head {a b : BindEvent} {l : List BindEvent}
    (h : bind_times_ok (a :: b :: l) = true) :
    a.1 ≤ b.1 ∧ b.1 < a.1 + THUMBNAILS_DEBOUNCE_MS := by
  simp only [bind_times_ok, Bool.and_eq_true, decide_eq_true_eq] at h
  exact h.1

theorem assoc_insert_keys (k : String) (v : GridItem) (l : List (String × GridItem)) :
    ((assoc_insert k v l).map Prod.fst).toFinset =
      insert k ((l.map Prod.fst).toFinset) := by
  ext a
  simp only [assoc_insert, List.map_cons, List.toFinset_cons, Finset.mem_insert,
    List.mem_toFinset, List.mem_map, List.mem_filter, bne_iff_ne, ne_eq]
  by_cases ha : a = k
  · simp [ha]
  · simp only [ha, false_or]
    constructor
    · rintro ⟨p, ⟨hp, _⟩, hpa⟩
      exact ⟨p, hp, hpa⟩
    · rintro ⟨p, hp, hpa⟩
      exact ⟨p, ⟨hp, fun hpk => ha (by rw [← hpa, hpk])⟩, hpa⟩

theorem foldl_insert_event_keys (evs : List BindEvent) :
    ∀ m : List (String × GridItem),
      ((evs.foldl insert_event m).map Prod.fst).toFinset =
        (m.map Prod.fst).toFinset ∪ (evs.map fun ev => ev.2.1.file.uri).toFinset := by
  induction evs with
  | nil =>
    intro m
    simp
  | cons ev rest ih =>
    intro m
    simp only [List.foldl_cons, List.map_cons, List.toFinset_cons]
    rw [ih]
    have hie : insert_event m ev = assoc_insert ev.2.1.file.uri ev.2.2 m := rfl
    rw [hie, assoc_insert_keys]
    ext a
    simp only [Finset.mem_union, Finset.mem_insert, List.mem_toFinset]
    tauto

theorem run_binds_quiet (evs : List BindEvent) :
    ∀ s : DirViewState,
      (∀ ev ∈ evs, ev.2.1.thumbnail_is_valid = false) →
      bind_times_ok evs = true →
      (∀ d ev, s.debounce_deadline = some d → evs.head? = some ev → ev.1 < d) →
      run_binds s evs =
        ((match evs.getLast? with
          | none => s
          | some last =>
            { s with no_thumbnails := evs.foldl insert_event s.no_thumbnails,
                     debounce_deadline := some (last.1 + THUMBNAILS_DEBOUNCE_MS) }),
         ([] : List (List String))) := by
  induction evs with
  | nil =>
    intro s _ _ _
    rfl
  | cons ev rest ih =>
    intro s hvalid htimes hdl
    have hstep : bind_step (s, []) ev = (on_item_bind s ev.1 ev.2.1 ev.2.2, []) := by
      cases hd : s.debounce_deadline with
      | none => simp [bind_step, hd]
      | some d =>
        have hlt : ev.1 < d := hdl d ev hd rfl
        simp [bind_step, hd, Nat.not_le.mpr hlt]
    have hbind : on_item_bind s ev.1 ev.2.1 ev.2.2 =
        { s with no_thumbnails := insert_event s.no_thumbnails ev,
                 debounce_deadline := some (ev.1 + THUMBNAILS_DEBOUNCE_MS) } := by
      simp [on_item_bind, hvalid ev (List.mem_cons_self ev rest), insert_event]
    have ihres := ih
        ({ s with no_thumbnails := insert_event s.no_thumbnails ev,
                  debounce_deadline := some (ev.1 + THUMBNAILS_DEBOUNCE_MS) })
        (fun e he => hvalid e (List.mem_cons_of_mem _ he))
        (bind_times_ok_tail htimes)
        (by
          intro d e hd he
          cases rest with
          | nil => exact absurd he (by simp)
          | cons b t =>
            have hb : b = e := by
              simpa using he
            have hd2 : ev.1 + THUMBNAILS_DEBOUNCE_MS = d := by
              simpa using hd
            subst hb
            rw [← hd2]
            exact (bind_times_ok_head htimes).2)
    unfold run_binds at ihres ⊢
    rw [List.foldl_cons, hstep, hbind, ihres]
    cases rest with
    | nil => simp
    | cons b t =>
      simp only [List.getLast?_cons_cons, List.foldl_cons]
      cases hlast : (b :: t).getLast? with
      | none => simp at hlast
      | some l => rfl

/-- C1: starting from an empty pending set with no armed timeout and a live
proxy, any non-empty sequence of bindings of thumbnail-less entries whose
consecutive arrivals are less than the debounce window apart produces
exactly one batched request, and that request carries exactly the set of
observed entry URIs. -/
theorem debounce_batch_spec :
    ∀ (s : DirViewState) (evs : List BindEvent),
      s.no_thumbnails = [] → s.debounce_deadline = none → s.thumbnailer_proxy = true →
      evs ≠ [] →
      (∀ ev ∈ evs, ev.2.1.thumbnail_is_valid = false) →
      bind_times_ok evs = true →
      ∃ ks, (run_binds_settle s evs).2 = [ks] ∧
        ks.toFinset = (evs.map fun ev => ev.2.1.file.uri).toFinset := by
  intro s evs hnt hdl hproxy hne hvalid htimes
  have hrun := run_binds_quiet evs s hvalid htimes
    (by
      intro d e hd _
      rw [hdl] at hd
      exact absurd hd (by simp))
  obtain ⟨last, hlast⟩ : ∃ l, evs.getLast? = some l := by
    cases hl : evs.getLast? with
    | none => exact absurd (List.getLast?_eq_none_iff.mp hl) hne
    | some l => exact ⟨l, rfl⟩
  rw [hlast] at hrun
  refine ⟨(evs.foldl insert_event s.no_thumbnails).map Prod.fst, ?_, ?_⟩
  · simp only [run_binds_settle, hrun, fire_debounce, send_for_thumbnailing]
    simp [hproxy]
  · rw [foldl_insert_event_keys, hnt]
    simp

theorem debounce_batch_spec_witness :
    sample_view.no_thumbnails = [] ∧ sample_view.debounce_deadline = none ∧
    sample_view.thumbnailer_proxy = true ∧ sample_binds ≠ [] ∧
    (∀ ev ∈ sample_binds, ev.2.1.thumbnail_is_valid = false) ∧
    bind_times_ok sample_binds = true ∧
    ∃ ks, (run_binds_settle sample_view sample_binds).2 = [ks] ∧
      ks.toFinset = (sample_binds.map fun ev => ev.2.1.file.uri).toFinset :=
  ⟨rfl, rfl, rfl, by decide, by decide, by decide,
    debounce_batch_spec sample_view sample_binds rfl rfl rfl (by decide) (by decide)
      (by decide)⟩

end Pfs
